import Mathlib

/-!
Verification development for the dot-context repository (`dcx`).

The Python sources are shallowly embedded: pure functions become Lean
functions; file-system access, console output and LLM backends are
abstracted into an explicit environment, and the observable side effects of
`execute_query` are recorded as an explicit event trace.  File paths are
modelled as `String` with the linear (lexicographic) order that Mathlib
provides for strings.
-/

namespace Dcx

/-! ## Character classes (Python `\w` and `\s`, ASCII fragment)

`tokens.py` uses the regex `\b\w+\b|[^\w\s]`.  We model the character
classes for the ASCII fragment: `\w` is alphanumeric or underscore, `\s` is
the six ASCII whitespace characters. -/

/-- Python's `\w` word-character class (ASCII fragment). -/
def wordChar (c : Char) : Bool :=
  c.isAlphanum || c == '_'

/-- Python's `\s` whitespace class (ASCII fragment): space, tab, newline,
carriage return, vertical tab, form feed. -/
def spaceChar (c : Char) : Bool :=
  c == ' ' || c == '\t' || c == '\n' || c == '\r' || c == '\x0b' || c == '\x0c'

/-! ## `dcx/utils/tokens.py` — `count_tokens_simple`

`TOKEN_PATTERN = re.compile(r"\b\w+\b|[^\w\s]")` and
`count_tokens_simple` returns `len(TOKEN_PATTERN.findall(text))`.
`findall` scans left to right; at a word character it matches the whole
maximal run of word characters (`\b\w+\b`: the run's two ends are word
boundaries exactly when the run is maximal), at any other non-whitespace
character it matches that single character, and whitespace matches
nothing.  `countTokensGo` implements this scan; the flag records whether
the previous character was a word character (i.e. whether the scan is
inside a word run that was already counted). -/

/-- Left-to-right scan of `TOKEN_PATTERN.findall`: the Bool flag is true
while inside an already-counted maximal word run. -/
def countTokensGo : Bool → List Char → Nat
  | _, [] => 0
  | inWord, c :: rest =>
    if wordChar c then (if inWord then 0 else 1) + countTokensGo true rest
    else if spaceChar c then countTokensGo false rest
    else 1 + countTokensGo false rest

/-- Model of `count_tokens_simple(text)` from `dcx/utils/tokens.py`: the number of
matches of `\b\w+\b|[^\w\s]` in `text` (the early return for empty text
returns 0, which the scan also yields on `[]`). -/
def count_tokens_simple (s : String) : Nat :=
  countTokensGo false s.data

/-- Token-start test for the spec's fixed tokenization rule, for a
character paired with the flag "the preceding character is a word
character": a token starts at a word character not preceded by a word
character (start of a maximal word run), or at any non-word non-whitespace
character. -/
def tokenStart (p : Char × Bool) : Bool :=
  (wordChar p.1 && !p.2) || (!wordChar p.1 && !spaceChar p.1)

/-- The spec's fixed tokenization rule, stated positionally: pair every
character with whether its predecessor is a word character (the first
character's predecessor flag is false) and count the positions where a
token starts — one per maximal run of word characters plus one per other
non-whitespace character. -/
def specTokenRule (l : List Char) : Nat :=
  (l.zip (false :: l.map wordChar)).countP tokenStart

theorem countTokensGo_eq_spec (l : List Char) (b : Bool) :
    countTokensGo b l = ((l.zip (b :: l.map wordChar)).countP tokenStart) := by
  induction l generalizing b with
  | nil => simp [countTokensGo]
  | cons c rest ih =>
    simp only [List.zip_cons_cons, List.map_cons, List.countP_cons, countTokensGo]
    by_cases hw : wordChar c
    · simp only [hw, if_true]
      rw [ih (b := true)]
      cases b <;> simp [tokenStart, hw, Nat.add_comm]
    · have hw' : wordChar c = false := by simpa using hw
      by_cases hs : spaceChar c
      · rw [if_neg (by simp [hw]), if_pos hs, ih (b := false)]
        have ht : tokenStart (c, b) = false := by simp [tokenStart, hw, hs]
        simp [ht, hw']
      · rw [if_neg (by simp [hw]), if_neg (by simp [hs]), ih (b := false)]
        have ht : tokenStart (c, b) = true := by simp [tokenStart, hw, hs]
        simp [ht, hw', Nat.add_comm]

/-! ## Python `str.split`, `str.strip`, `str.lower` -/

/-- Accumulator-based splitter: `pySplitCharAux sep acc l` models the tail
of Python `str.split(sep)` with `acc` holding the (reversed) characters of
the current field. -/
def pySplitCharAux (sep : Char) (acc : List Char) : List Char → List (List Char)
  | [] => [acc.reverse]
  | c :: rest =>
    if c = sep then acc.reverse :: pySplitCharAux sep [] rest
    else pySplitCharAux sep (c :: acc) rest

/-- Python `str.split(sep)` for a single-character separator: always returns
at least one field; splitting the empty string gives one empty field and a
trailing separator yields a trailing empty field. -/
def pySplitChar (sep : Char) (l : List Char) : List (List Char) :=
  pySplitCharAux sep [] l

/-- The comma split of `set_name` performed by `execute_query`
(`dcx/query.py`). -/
def splitCommas (s : String) : List String :=
  (pySplitChar ',' s.data).map List.asString

/-- Python `str.strip()`: remove leading and trailing whitespace. -/
def pyStrip (s : String) : String :=
  List.asString (((s.data.dropWhile spaceChar).reverse.dropWhile spaceChar).reverse)

/-- Python `str.lower()` (ASCII fragment), used on the confirmation reply in
`execute_query`. -/
def pyLower (s : String) : String :=
  List.asString (s.data.map Char.toLower)

/-! ## `dcx/query.py` — `create_prompt` and its header-stripping regex

`create_prompt` with `include_filenames=False` runs
`re.sub` with pattern `# .*?\n\n` and empty replacement on the context.
Since `.` does not match a newline, a match starting at a `"# "` consists
of `"# "`, the rest of that line, and a following blank line (the lazy
`.*?` and a greedy `.*` agree here: the run cannot contain a newline, and
the first newline reached must be doubled).  `re.sub` scans left to right,
removing each non-overlapping match. -/

/-- After `"# "` has been read, consume the rest of the line (non-newline
characters); the match succeeds exactly when the line ends in two
consecutive newlines, returning the remaining input. -/
def matchHeaderTail : List Char → Option (List Char)
  | [] => none
  | c :: rest =>
    if c = '\n' then
      match rest with
      | [] => none
      | c2 :: rest2 => if c2 = '\n' then some rest2 else none
    else matchHeaderTail rest

theorem matchHeaderTail_sublist :
    ∀ l r : List Char, matchHeaderTail l = some r → r.Sublist l := by
  intro l
  induction l with
  | nil => intro r h; simp [matchHeaderTail] at h
  | cons c rest ih =>
    intro r h
    by_cases hc : c = '\n'
    · match rest with
      | [] => simp [matchHeaderTail, hc] at h
      | c2 :: rest2 =>
        by_cases h2 : c2 = '\n'
        · simp only [matchHeaderTail, if_pos hc, if_pos h2, Option.some.injEq] at h
          subst h
          exact (List.sublist_cons_self _ _).trans (List.sublist_cons_self _ _)
        · simp [matchHeaderTail, hc, h2] at h
    · simp only [matchHeaderTail, if_neg hc] at h
      exact (ih r h).trans (List.sublist_cons_self _ _)

/-- One left-to-right pass of the header-removing substitution, with
explicit fuel (the input length suffices); at a position where no match
starts the character is copied and the scan advances by one. -/
def stripHeadersAux : Nat → List Char → List Char
  | 0, l => l
  | _ + 1, [] => []
  | fuel + 1, c :: rest =>
    if c = '#' then
      match rest with
      | [] => c :: stripHeadersAux fuel rest
      | c2 :: rest2 =>
        if c2 = ' ' then
          match matchHeaderTail rest2 with
          | some rest' => stripHeadersAux fuel rest'
          | none => c :: stripHeadersAux fuel (c2 :: rest2)
        else c :: stripHeadersAux fuel (c2 :: rest2)
    else c :: stripHeadersAux fuel rest

/-- The substitution `re.sub` with pattern `# .*?\n\n` and empty
replacement from `create_prompt` (`dcx/query.py`,
`include_filenames=False` branch). -/
def stripHeaders (l : List Char) : List Char :=
  stripHeadersAux l.length l

theorem stripHeadersAux_sublist :
    ∀ (fuel : Nat) (l : List Char), (stripHeadersAux fuel l).Sublist l := by
  intro fuel
  induction fuel with
  | zero => intro l; exact List.Sublist.refl l
  | succ n ih =>
    intro l
    match l with
    | [] => simp [stripHeadersAux]
    | c :: rest =>
      by_cases hc : c = '#'
      · match rest with
        | [] =>
          simp only [stripHeadersAux, if_pos hc]
          exact List.Sublist.cons₂ _ (ih [])
        | c2 :: rest2 =>
          by_cases h2 : c2 = ' '
          · simp only [stripHeadersAux, if_pos hc, if_pos h2]
            match hm : matchHeaderTail rest2 with
            | some rest' =>
              exact ((ih rest').trans (matchHeaderTail_sublist rest2 rest' hm)).trans
                ((List.sublist_cons_self _ _).trans (List.sublist_cons_self _ _))
            | none =>
              exact List.Sublist.cons₂ _ (ih (c2 :: rest2))
          · simp only [stripHeadersAux, if_pos hc, if_neg h2]
            exact List.Sublist.cons₂ _ (ih (c2 :: rest2))
      · simp only [stripHeadersAux, if_neg hc]
        exact List.Sublist.cons₂ _ (ih rest)

theorem stripHeadersAux_of_no_hash :
    ∀ (fuel : Nat) (l : List Char), '#' ∉ l → stripHeadersAux fuel l = l := by
  intro fuel
  induction fuel with
  | zero => intro l _; rfl
  | succ n ih =>
    intro l hl
    match l with
    | [] => rfl
    | c :: rest =>
      have hc : c ≠ '#' := fun h => hl (h ▸ List.mem_cons_self c rest)
      have hrest : '#' ∉ rest := fun h => hl (List.mem_cons_of_mem _ h)
      simp [stripHeadersAux, hc, ih rest hrest]

/-- Model of `create_prompt(context, query, include_filenames)` from `dcx/query.py`:
wraps the context (its header lines stripped when `include_filenames` is
false) and the query into the instructional template. -/
def create_prompt (context query : String) (include_filenames : Bool) : String :=
  if include_filenames then
    "Below is the context from my project files:\n\n" ++ context ++
      "\n\nMy question is: " ++ query ++
      "\n\nPlease respond to my question based on the provided context."
  else
    "Below is the context from my project:\n\n" ++
      List.asString (stripHeaders context.data) ++
      "\n\nMy question is: " ++ query ++
      "\n\nPlease respond to my question based on the provided context."

/-! ## `dcx/context_sets.py` — `ContextSet`

`ContextSet.get_matching_files` collects, into a Python set, the files
matched by each glob pattern (joined onto the base directory), then — when
a registry of all sets is supplied — the files of each included set, and
returns the sorted list of the set's elements.  The Python set of paths is
modelled as a duplicate-free list built by membership-checked insertion
(`setAdd`/`setUnion`); `sorted(list(...))` is modelled by insertion sort
under the lexicographic string order.

The pattern matcher (`glob.glob` with `recursive=True` followed by the
`os.path.isfile` filter) is an out-of-scope collaborator (spec §4.1) and is
abstracted as a function `glob : String → List String` from a full pattern
to the matched regular files. -/

/-- A context set (`ContextSet.__init__` from `dcx/context_sets.py`):
name, description, the `match` patterns and the `include` list from the
configuration entry, and the base directory. -/
structure ContextSet where
  name : String
  description : String
  match_patterns : List String
  includes : List String
  base_dir : String
deriving DecidableEq

/-- Registry of all loaded sets (the `all_sets` dictionary): lookup by
set name. -/
abbrev Registry := String → Option ContextSet

/-- Model of `os.path.join(base_dir, pattern)` for a relative pattern. -/
def osJoin (base pat : String) : String :=
  base ++ "/" ++ pat

/-- Adding one element to a Python set modelled as a duplicate-free list. -/
def setAdd (l : List String) (x : String) : List String :=
  if x ∈ l then l else l ++ [x]

/-- Repeated `set.add` (models `set.update`): insert every element of `xs`. -/
def setUnion (l : List String) (xs : List String) : List String :=
  xs.foldl setAdd l

/-- The files matched by the set's own `match` patterns (the first loop of
`get_matching_files`). -/
def ContextSet.directMatches (s : ContextSet) (glob : String → List String) :
    List String :=
  s.match_patterns.foldl (fun acc pat => setUnion acc (glob (osJoin s.base_dir pat))) []

/-- Model of `ContextSet.get_matching_files(all_sets)` from `dcx/context_sets.py`.
When a registry is supplied, each include that is present in the registry
and is not the set itself contributes the files of
`included_set.get_matching_files()` — the call passes no registry, so its
value is the sorted list of `included_set.directMatches`, and adding it to
the working set adds exactly those files.  A missing include only emits a
warning (modelled in the query-level trace, not here).  The result is the
sorted list of the collected set. -/
def ContextSet.get_matching_files (s : ContextSet) (glob : String → List String)
    (all_sets : Option Registry) : List String :=
  let matching :=
    match all_sets with
    | none => s.directMatches glob
    | some reg =>
      s.includes.foldl (fun acc n =>
        match reg n with
        | some t => if n ≠ s.name then setUnion acc (t.directMatches glob) else acc
        | none => acc) (s.directMatches glob)
  List.insertionSort (· ≤ ·) matching

theorem mem_setAdd (l : List String) (x y : String) :
    y ∈ setAdd l x ↔ y ∈ l ∨ y = x := by
  by_cases h : x ∈ l
  · simp only [setAdd, if_pos h]
    constructor
    · exact Or.inl
    · rintro (hy | rfl)
      · exact hy
      · exact h
  · simp [setAdd, if_neg h]

theorem mem_setUnion (l xs : List String) (y : String) :
    y ∈ setUnion l xs ↔ y ∈ l ∨ y ∈ xs := by
  induction xs generalizing l with
  | nil => simp [setUnion]
  | cons x xs ih =>
    simp only [setUnion, List.foldl_cons]
    rw [show xs.foldl setAdd (setAdd l x) = setUnion (setAdd l x) xs from rfl, ih]
    rw [mem_setAdd]
    simp [or_assoc, List.mem_cons]

theorem nodup_setAdd (l : List String) (x : String) (h : l.Nodup) :
    (setAdd l x).Nodup := by
  by_cases hx : x ∈ l
  · simpa [setAdd, hx] using h
  · simp only [setAdd, if_neg hx]
    simpa [List.nodup_append] using ⟨h, fun hmem => hx hmem⟩

theorem nodup_setUnion (l xs : List String) (h : l.Nodup) :
    (setUnion l xs).Nodup := by
  induction xs generalizing l with
  | nil => simpa [setUnion]
  | cons x xs ih =>
    simp only [setUnion, List.foldl_cons]
    exact ih (setAdd l x) (nodup_setAdd l x h)

theorem nodup_directMatches (s : ContextSet) (glob : String → List String) :
    (s.directMatches glob).Nodup := by
  unfold ContextSet.directMatches
  generalize hinit : ([] : List String) = init
  have h0 : init.Nodup := hinit ▸ List.nodup_nil
  clear hinit
  induction s.match_patterns generalizing init with
  | nil => simpa using h0
  | cons p ps ih =>
    simp only [List.foldl_cons]
    exact ih _ (nodup_setUnion _ _ h0)

theorem nodup_includes_foldl (glob : String → List String) (reg : Registry)
    (nm : String) (includes : List String) (init : List String) (h : init.Nodup) :
    (includes.foldl (fun acc n =>
        match reg n with
        | some t => if n ≠ nm then setUnion acc (t.directMatches glob) else acc
        | none => acc) init).Nodup := by
  induction includes generalizing init with
  | nil => simpa using h
  | cons n ns ih =>
    simp only [List.foldl_cons]
    apply ih
    match reg n with
    | some t =>
      by_cases hn : n ≠ nm
      · simpa [hn] using nodup_setUnion init (t.directMatches glob) h
      · simpa [hn] using h
    | none => simpa using h

/-- The list collected by `get_matching_files` before sorting is
duplicate-free, so its sorted output is sorted and duplicate-free. -/
theorem get_matching_files_sorted_nodup (s : ContextSet)
    (glob : String → List String) (all_sets : Option Registry) :
    List.Sorted (· ≤ ·) (s.get_matching_files glob all_sets) ∧
      (s.get_matching_files glob all_sets).Nodup := by
  unfold ContextSet.get_matching_files
  refine ⟨List.sorted_insertionSort _ _, ?_⟩
  rw [List.Perm.nodup_iff (List.perm_insertionSort _ _)]
  match all_sets with
  | none => exact nodup_directMatches s glob
  | some reg =>
    exact nodup_includes_foldl glob reg s.name s.includes _ (nodup_directMatches s glob)

theorem mem_includes_foldl (glob : String → List String) (reg : Registry)
    (nm : String) (includes : List String) (init : List String) (y : String) :
    (y ∈ includes.foldl (fun acc n =>
        match reg n with
        | some t => if n ≠ nm then setUnion acc (t.directMatches glob) else acc
        | none => acc) init) ↔
      y ∈ init ∨ ∃ n ∈ includes, ∃ t, reg n = some t ∧ n ≠ nm ∧
        y ∈ t.directMatches glob := by
  induction includes generalizing init with
  | nil => simp
  | cons n ns ih =>
    match hr : reg n with
    | some t =>
      by_cases hn : n ≠ nm
      · simp only [List.foldl_cons, hr, if_pos hn]
        rw [ih, mem_setUnion]
        constructor
        · rintro ((hy | hy) | ⟨n', hn', t', ht', hne, hmem⟩)
          · exact Or.inl hy
          · exact Or.inr ⟨n, List.mem_cons_self n ns, t, hr, hn, hy⟩
          · exact Or.inr ⟨n', List.mem_cons_of_mem _ hn', t', ht', hne, hmem⟩
        · rintro (hy | ⟨n', hn', t', ht', hne, hmem⟩)
          · exact Or.inl (Or.inl hy)
          · rcases List.mem_cons.mp hn' with rfl | hn'
            · rw [hr] at ht'
              injection ht' with ht'
              subst ht'
              exact Or.inl (Or.inr hmem)
            · exact Or.inr ⟨n', hn', t', ht', hne, hmem⟩
      · simp only [List.foldl_cons, hr, if_neg hn]
        rw [ih]
        push_neg at hn
        constructor
        · rintro (hy | ⟨n', hn', t', ht', hne, hmem⟩)
          · exact Or.inl hy
          · exact Or.inr ⟨n', List.mem_cons_of_mem _ hn', t', ht', hne, hmem⟩
        · rintro (hy | ⟨n', hn', t', ht', hne, hmem⟩)
          · exact Or.inl hy
          · rcases List.mem_cons.mp hn' with rfl | hn'
            · exact absurd hn hne
            · exact Or.inr ⟨n', hn', t', ht', hne, hmem⟩
    | none =>
      simp only [List.foldl_cons, hr]
      rw [ih]
      constructor
      · rintro (hy | ⟨n', hn', t', ht', hne, hmem⟩)
        · exact Or.inl hy
        · exact Or.inr ⟨n', List.mem_cons_of_mem _ hn', t', ht', hne, hmem⟩
      · rintro (hy | ⟨n', hn', t', ht', hne, hmem⟩)
        · exact Or.inl hy
        · rcases List.mem_cons.mp hn' with rfl | hn'
          · rw [hr] at ht'
            cases ht'
          · exact Or.inr ⟨n', hn', t', ht', hne, hmem⟩

theorem mem_get_matching_files_none (s : ContextSet)
    (glob : String → List String) (y : String) :
    y ∈ s.get_matching_files glob none ↔ y ∈ s.directMatches glob := by
  unfold ContextSet.get_matching_files
  exact (List.perm_insertionSort _ _).mem_iff

/-! ## `dcx/query.py` — `execute_query` and its helpers

The orchestrator's collaborators are gathered into an environment `Env`:
the loaded configuration (the `Models` section and the registry of context
sets produced by `load_context_sets`), the pattern matcher, the content
and token count of each file, the provider gateway (`get_provider`), and
the reply the user types at the empty-context confirmation gate.

The observable side effects of a query are recorded as a trace of events:
set resolution (each call of `get_context_set_files`), non-fatal warnings,
file reads, the context-information line printed before the completion
(carrying the displayed file count and token total), and the completion
request issued to the provider.  The result of an invocation is an
`Outcome`.  Config-file loading itself is performed by the out-of-scope
configuration loader and is not an event. -/

/-- Configuration entry of one model under the `Models` section.  Only the
provider identifier is needed by the modelled flow; the entry is passed
opaquely to the provider gateway. -/
structure ModelCfg where
  provider : String
deriving DecidableEq

/-- An abstract provider as returned by `get_provider`
(`dcx/providers/__init__.py`): `validate_config`, `get_completion` and
`get_completion_stream` (the latter as the finite list of chunks the
generator yields). -/
structure Provider where
  valid : Bool
  complete : String → Option String → Rat → Option Nat → String
  stream : String → Option String → Rat → Option Nat → List String

/-- Observable side effects of `execute_query`, in order of occurrence. -/
inductive Event where
  | resolveSet (name : String)
  | warnSetMissing (name : String)
  | readFile (path : String)
  | warnEmptySet (name : String)
  | display (files_count : Nat) (total_tokens : Nat)
  | completionCall (prompt : String)
deriving DecidableEq

/-- Terminal result of one `execute_query` invocation. -/
inductive Outcome where
  | modelNotFound
  | setNotFound
  | cancelled
  | providerNone
  | providerInvalid
  | done (response : String)
deriving DecidableEq

/-- The environment an invocation runs in: loaded configuration, file
system, provider gateway and the user's confirmation reply. -/
structure Env where
  models : Option (List (String × ModelCfg))
  sets : Registry
  glob : String → List String
  content : String → String
  tokens : String → Nat
  get_provider : String → ModelCfg → Option Provider
  proceed_reply : String

/-- Model of `get_context_set_files(set_name, config_path)`
(`dcx/context_sets.py`): loads the registry, raises `KeyError` (modelled
as `none`) when the name is absent, otherwise resolves the set against the
full registry.  Each call is one set resolution event. -/
def get_context_set_files (env : Env) (name : String) :
    List Event × Option (List String) :=
  ([Event.resolveSet name],
   match env.sets name with
   | none => none
   | some s => some (s.get_matching_files env.glob (some env.sets)))

/-- Model of `format_context_from_files(files)` (`dcx/query.py`): read every file in
order, render it as header, blank line, content and two newlines, join the
sections with a newline, and sum the per-file token counts.  Per-file read
errors (skipped with a warning in the source) are outside the modelled
file system, which always yields content. -/
def format_context_from_files (env : Env) (files : List String) :
    List Event × String × Nat :=
  (files.map Event.readFile,
   String.intercalate "\n"
     (files.map fun p => "# " ++ p ++ "\n\n" ++ env.content p ++ "\n\n"),
   (files.map env.tokens).sum)

/-- The duplicate-removing loop of `format_context_from_multiple_sets`:
keep the first occurrence of each path, preserving order, with `seen` the
set of already-kept paths. -/
def pyDedupAux (seen : List String) : List String → List String
  | [] => []
  | x :: xs => if x ∈ seen then pyDedupAux seen xs else x :: pyDedupAux (x :: seen) xs

/-- Order-preserving, first-occurrence-wins duplicate removal. -/
def pyDedup (l : List String) : List String :=
  pyDedupAux [] l

/-- Model of `format_context_from_multiple_sets(set_names, config_path)`
(`dcx/query.py`): resolve every name (a missing one contributes no files
and a warning), concatenate the file lists in order, drop duplicate paths
keeping first occurrences, and delegate to `format_context_from_files`. -/
def format_context_from_multiple_sets (env : Env) (set_names : List String) :
    List Event × String × Nat :=
  let all_files :=
    (set_names.map fun n => ((get_context_set_files env n).2).getD []).flatten
  let evs :=
    (set_names.map fun n =>
      match (get_context_set_files env n).2 with
      | some _ => (get_context_set_files env n).1
      | none => (get_context_set_files env n).1 ++ [Event.warnSetMissing n]).flatten
  let unique_files := pyDedup all_files
  let r := format_context_from_files env unique_files
  (evs ++ r.1, r.2.1, r.2.2)

/-- Tail of `execute_query` common to both set-resolution branches
(`dcx/query.py` lines 192-252): obtain the provider, validate it, build
the prompt, print the context information line and run the (streaming or
blocking) completion.  The streaming path concatenates all yielded
chunks. -/
def finish_query (env : Env) (query model_name : String) (mc : ModelCfg)
    (files_count : Nat) (context : String) (total_tokens : Nat)
    (system_prompt : Option String) (temperature : Rat)
    (max_tokens : Option Nat) (stream include_filenames : Bool) :
    List Event × Outcome :=
  match env.get_provider model_name mc with
  | none => ([], Outcome.providerNone)
  | some provider =>
    if provider.valid = false then ([], Outcome.providerInvalid)
    else
      let prompt := create_prompt context query include_filenames
      ([Event.display files_count total_tokens, Event.completionCall prompt],
       if stream then
         Outcome.done (String.join (provider.stream prompt system_prompt temperature max_tokens))
       else
         Outcome.done (provider.complete prompt system_prompt temperature max_tokens))

/-- Model of `execute_query(query, set_name, model_name, ...)` (`dcx/query.py`):
validate the model name against the `Models` section, split `set_name` on
commas and strip each name; with more than one name build the context from
the multiple sets and display the sum of the independently re-resolved set
sizes; with a single name resolve it (the unsplit `set_name` is used for
the lookup), gate an empty result on an interactive confirmation, then
finish with provider acquisition and completion. -/
def execute_query (env : Env) (query set_name model_name : String)
    (system_prompt : Option String) (temperature : Rat)
    (max_tokens : Option Nat) (stream include_filenames : Bool) :
    List Event × Outcome :=
  match (env.models.getD []).lookup model_name with
  | none => ([], Outcome.modelNotFound)
  | some mc =>
    let set_names := (splitCommas set_name).map pyStrip
    if 1 < set_names.length then
      let r := format_context_from_multiple_sets env set_names
      let present := set_names.filter fun s => (env.sets s).isSome
      let files_count :=
        (present.map fun s => (((get_context_set_files env s).2).getD []).length).sum
      let ev₂ := (present.map fun s => (get_context_set_files env s).1).flatten
      let f := finish_query env query model_name mc files_count r.2.1 r.2.2
        system_prompt temperature max_tokens stream include_filenames
      (r.1 ++ ev₂ ++ f.1, f.2)
    else
      match (get_context_set_files env set_name).2 with
      | none => ((get_context_set_files env set_name).1, Outcome.setNotFound)
      | some files =>
        if files.isEmpty then
          if pyLower env.proceed_reply ≠ "y" then
            ((get_context_set_files env set_name).1 ++ [Event.warnEmptySet set_name],
             Outcome.cancelled)
          else
            let f := finish_query env query model_name mc files.length "" 0
              system_prompt temperature max_tokens stream include_filenames
            ((get_context_set_files env set_name).1 ++ [Event.warnEmptySet set_name] ++ f.1,
             f.2)
        else
          let r := format_context_from_files env files
          let f := finish_query env query model_name mc files.length r.2.1 r.2.2
            system_prompt temperature max_tokens stream include_filenames
          ((get_context_set_files env set_name).1 ++ r.1 ++ f.1, f.2)

/-! ## `dcx/providers/anthropic.py` — `AnthropicProvider`

The Anthropic SDK client is abstracted as a backend whose calls either
return a value or fail with an error message (`Except` models the raised
exception that the provider catches).  `messages.create` returns the
response's content blocks (their text); `messages.stream` produces a
finite sequence of text chunks and optionally fails after some of them. -/

/-- Abstract Anthropic SDK client: `messages.create` and
`messages.stream`, each taking the model identifier, the message list,
the system prompt, the temperature and the token limit.  A stream result
is the chunks produced before the call either finishes (`none`) or raises
an error (`some e`). -/
structure AnthropicBackend where
  create : String → List (String × String) → Option String → Rat → Option Nat →
    Except String (List String)
  stream : String → List (String × String) → Option String → Rat → Option Nat →
    List String × Option String

/-- State set up by `AnthropicProvider.__init__`: the availability flag of the
`anthropic` package, the configured api key (empty when absent), the model
identifier and the initialized client, if any. -/
structure AnthropicProvider where
  anthropic_available : Bool
  api_key : String
  model : String
  client : Option AnthropicBackend

/-- Model of `AnthropicProvider.validate_config`: the package is installed, an api
key and a model are configured, and the client was initialized. -/
def AnthropicProvider.validate_config (p : AnthropicProvider) : Bool :=
  p.anthropic_available && !(p.api_key == "") && !(p.model == "") && p.client.isSome

/-- Model of `AnthropicProvider.get_completion` (`dcx/providers/anthropic.py`):
invalid configuration returns a fixed error string; a successful backend
call returns the first content block's text (or the empty string); a
raised backend error is caught and returned as an error-message string. -/
def AnthropicProvider.get_completion (p : AnthropicProvider) (prompt : String)
    (system_prompt : Option String) (temperature : Rat)
    (max_tokens : Option Nat) : String :=
  if p.validate_config = false then
    "Error: Anthropic provider not properly configured."
  else
    match p.client with
    | none => "Error: Anthropic provider not properly configured."
    | some client =>
      match client.create p.model [("user", prompt)] system_prompt temperature max_tokens with
      | Except.ok content =>
        match content with
        | [] => ""
        | t :: _ => t
      | Except.error e => "Error: " ++ e

/-- Model of `AnthropicProvider.get_completion_stream`: invalid configuration
yields one error chunk; otherwise the backend's chunks are yielded and a
raised backend error is caught and yielded as one final error-message
chunk, after which the generator ends. -/
def AnthropicProvider.get_completion_stream (p : AnthropicProvider)
    (prompt : String) (system_prompt : Option String) (temperature : Rat)
    (max_tokens : Option Nat) : List String :=
  if p.validate_config = false then
    ["Error: Anthropic provider not properly configured."]
  else
    match p.client with
    | none => ["Error: Anthropic provider not properly configured."]
    | some client =>
      let r := client.stream p.model [("user", prompt)] system_prompt temperature max_tokens
      r.1 ++ (match r.2 with
        | some e => ["Error: " ++ e]
        | none => [])

/-- Membership in `get_matching_files` with a registry: the direct matches
plus, for every include that the registry resolves to a set other than the
including set itself, that set's direct matches. -/
theorem mem_get_matching_files_some (s : ContextSet)
    (glob : String → List String) (reg : Registry) (y : String) :
    y ∈ s.get_matching_files glob (some reg) ↔
      y ∈ s.directMatches glob ∨
        ∃ n ∈ s.includes, ∃ t, reg n = some t ∧ n ≠ s.name ∧
          y ∈ t.directMatches glob := by
  unfold ContextSet.get_matching_files
  rw [(List.perm_insertionSort _ _).mem_iff]
  exact mem_includes_foldl glob reg s.name s.includes _ y

/-! ## Shared example fixtures (used by witnesses) -/

/-- Example set matching the top-level markdown files (spec scenario). -/
def exMarkdown : ContextSet := ⟨"markdown", "", ["*.md"], [], "base"⟩

/-- Example set matching the subfolder markdown files (spec scenario). -/
def exSubfolder : ContextSet := ⟨"subfolder", "", ["subfolder/*.md"], [], "base"⟩

/-- Example set with no own patterns that includes the two others (spec
scenario). -/
def exCombined : ContextSet := ⟨"combined", "", [], ["markdown", "subfolder"], "base"⟩

/-- Example set that includes itself alongside another set. -/
def exSelfInc : ContextSet := ⟨"selfinc", "", ["*.md"], ["selfinc", "markdown"], "base"⟩

/-- Example pattern matcher for the scenario: two markdown files at the
top level (returned unsorted) and one in the subfolder. -/
def exGlobMd : String → List String := fun pat =>
  if pat = "base/*.md" then ["base/b.md", "base/a.md"]
  else if pat = "base/subfolder/*.md" then ["base/subfolder/c.md"]
  else []

/-- Example registry holding the four example sets. -/
def exRegMd : Registry := fun n =>
  if n = "markdown" then some exMarkdown
  else if n = "subfolder" then some exSubfolder
  else if n = "combined" then some exCombined
  else if n = "selfinc" then some exSelfInc
  else none

/-! ## Claims C1-C5 -/

/-- C1: when a set's includes are resolved with a registry supplied, each
included set is resolved without the registry, so it contributes exactly
the files matched by its own direct patterns (its includes are not
expanded); the result is exactly the union of the set's own pattern
matches and each included set's direct pattern matches, with no
duplicates, sorted. -/
theorem C1_one_level_include_resolution (glob : String → List String)
    (reg : Registry) (s : ContextSet)
    (hpres : ∀ n ∈ s.includes, ∃ t, reg n = some t)
    (hself : ∀ n ∈ s.includes, n ≠ s.name) :
    (∀ p : String,
      p ∈ s.get_matching_files glob (some reg) ↔
        p ∈ s.get_matching_files glob none ∨
          ∃ n ∈ s.includes, ∃ t, reg n = some t ∧
            p ∈ t.get_matching_files glob none) ∧
    List.Sorted (· ≤ ·) (s.get_matching_files glob (some reg)) ∧
    (s.get_matching_files glob (some reg)).Nodup := by
  refine ⟨?_, (get_matching_files_sorted_nodup s glob (some reg)).1,
    (get_matching_files_sorted_nodup s glob (some reg)).2⟩
  intro p
  rw [mem_get_matching_files_some, mem_get_matching_files_none]
  constructor
  · rintro (h | ⟨n, hn, t, ht, _, hmem⟩)
    · exact Or.inl h
    · exact Or.inr ⟨n, hn, t, ht, (mem_get_matching_files_none t glob p).mpr hmem⟩
  · rintro (h | ⟨n, hn, t, ht, hmem⟩)
    · exact Or.inl h
    · exact Or.inr ⟨n, hn, t, ht, hself n hn,
        (mem_get_matching_files_none t glob p).mp hmem⟩

/-- Witness for C1 at the spec's scenario: `combined` includes `markdown`
and `subfolder`, whose direct matches make up its resolution. -/
theorem C1_one_level_include_resolution_witness :
    (∀ p : String,
      p ∈ exCombined.get_matching_files exGlobMd (some exRegMd) ↔
        p ∈ exCombined.get_matching_files exGlobMd none ∨
          ∃ n ∈ exCombined.includes, ∃ t, exRegMd n = some t ∧
            p ∈ t.get_matching_files exGlobMd none) ∧
    List.Sorted (· ≤ ·) (exCombined.get_matching_files exGlobMd (some exRegMd)) ∧
    (exCombined.get_matching_files exGlobMd (some exRegMd)).Nodup :=
  C1_one_level_include_resolution exGlobMd exRegMd exCombined
    (by
      intro n hn
      simp only [exCombined, List.mem_cons, List.not_mem_nil, or_false] at hn
      rcases hn with rfl | rfl
      · exact ⟨exMarkdown, rfl⟩
      · exact ⟨exSubfolder, rfl⟩)
    (by decide)

/-- C2: for every set and any combination of patterns and includes
(registry supplied or not), the resolved list is sorted in lexicographic
path order and contains no duplicate paths. -/
theorem C2_resolve_sorted_nodup (glob : String → List String) (s : ContextSet)
    (all_sets : Option Registry) :
    List.Sorted (· ≤ ·) (s.get_matching_files glob all_sets) ∧
      (s.get_matching_files glob all_sets).Nodup :=
  get_matching_files_sorted_nodup s glob all_sets

/-- The include fold ignores every include equal to the set's own name, so
it equals the fold over the includes with that name filtered out. -/
theorem includes_foldl_filter_self (glob : String → List String) (reg : Registry)
    (nm : String) (includes : List String) (init : List String) :
    includes.foldl (fun acc n =>
        match reg n with
        | some t => if n ≠ nm then setUnion acc (t.directMatches glob) else acc
        | none => acc) init =
      (includes.filter fun n => n != nm).foldl (fun acc n =>
        match reg n with
        | some t => if n ≠ nm then setUnion acc (t.directMatches glob) else acc
        | none => acc) init := by
  induction includes generalizing init with
  | nil => rfl
  | cons n ns ih =>
    by_cases hn : n = nm
    · subst hn
      cases h : reg n with
      | none =>
        simp only [List.foldl_cons, List.filter_cons, h, bne_self_eq_false,
          Bool.false_eq_true, if_false]
        exact ih init
      | some t =>
        simp only [List.foldl_cons, List.filter_cons, h, ne_eq, not_true_eq_false,
          if_false, bne_self_eq_false, Bool.false_eq_true]
        exact ih init
    · have hb : (n != nm) = true := by simpa using hn
      simp only [List.foldl_cons, List.filter_cons, hb, if_true]
      exact ih _

/-- C3: resolving a set whose includes contain its own name (with a
registry supplied) terminates — the resolution function is total in this
model — and returns exactly the same file list as resolving the same set
with the self-reference removed from its includes: the self-include is
skipped and contributes nothing. -/
theorem C3_self_include_skipped (glob : String → List String) (reg : Registry)
    (s : ContextSet) (h : s.name ∈ s.includes) :
    s.get_matching_files glob (some reg) =
      ({ s with includes := s.includes.filter fun n => n != s.name } :
        ContextSet).get_matching_files glob (some reg) := by
  unfold ContextSet.get_matching_files
  exact congrArg _ (includes_foldl_filter_self glob reg s.name s.includes _)

/-- Witness for C3: a set that includes itself resolves to the same files
as its self-reference-free variant. -/
theorem C3_self_include_skipped_witness :
    exSelfInc.get_matching_files exGlobMd (some exRegMd) =
      ({ exSelfInc with includes := exSelfInc.includes.filter fun n => n != exSelfInc.name } :
        ContextSet).get_matching_files exGlobMd (some exRegMd) :=
  C3_self_include_skipped exGlobMd exRegMd exSelfInc (by decide)

/-- C5: the token estimate agrees with the spec's fixed rule (one token
per maximal run of word characters, one per other non-whitespace
character, none for whitespace), and takes the spec's stated values on the
three example strings. -/
theorem C5_token_estimate_rule :
    (∀ s : String, count_tokens_simple s = specTokenRule s.data) ∧
    count_tokens_simple "" = 0 ∧
    count_tokens_simple "hello world" = 2 ∧
    count_tokens_simple "one, two, three." = 6 := by
  refine ⟨fun s => ?_, by decide, by decide, by decide⟩
  unfold count_tokens_simple specTokenRule
  exact countTokensGo_eq_spec s.data false

/-- Line-start test for the claim's notion of a header line: the line
begins with the marker `"# "`. -/
def hdrLineStart : List Char → Bool
  | '#' :: ' ' :: _ => true
  | _ => false

/-- C4 counterexample: in the context `"a# b\n\nc"` no line starts with
the header marker (so the claim requires the whole context to be retained
verbatim when `includeFilenames` is false), yet `create_prompt` deletes
the mid-line match `"# b\n\n"`, producing `"ac"` instead of the original
context. -/
theorem C4_counterexample_midline_match :
    (∀ l ∈ pySplitChar '\n' "a# b\n\nc".data, hdrLineStart l = false) ∧
    create_prompt "a# b\n\nc" "q" false =
      "Below is the context from my project:\n\nac\n\nMy question is: q\n\nPlease respond to my question based on the provided context." ∧
    create_prompt "a# b\n\nc" "q" false ≠
      "Below is the context from my project:\n\na# b\n\nc\n\nMy question is: q\n\nPlease respond to my question based on the provided context." := by
  refine ⟨by decide, by decide, by decide⟩

/-- C4 (amended): with `includeFilenames=false` the embedded context is
obtained from the original purely by deletions (the output characters are
a subsequence of the context), the deleted segments being the matches of
the header pattern — marker, rest of line, blank line — wherever they
occur, including mid-line; a context without the marker character is
embedded verbatim.  Generated per-file header lines are such matches and
are removed, but matching content that is not a header line is removed as
well, so non-header content is not always retained. -/
theorem C4_amended_header_strip (context query : String) :
    create_prompt context query false =
      "Below is the context from my project:\n\n" ++
        List.asString (stripHeaders context.data) ++
        "\n\nMy question is: " ++ query ++
        "\n\nPlease respond to my question based on the provided context." ∧
    (stripHeaders context.data).Sublist context.data ∧
    ('#' ∉ context.data → stripHeaders context.data = context.data) := by
  refine ⟨rfl, stripHeadersAux_sublist _ _, fun h => stripHeadersAux_of_no_hash _ _ h⟩

/-- Witness for the amended C4: a marker-free context passes through the
stripping unchanged. -/
theorem C4_amended_header_strip_witness :
    stripHeaders "hello world".data = "hello world".data :=
  (C4_amended_header_strip "hello world" "q").2.2 (by decide)

/-! ## Query-level fixtures -/

/-- Example provider that always succeeds. -/
def exProvider : Provider :=
  ⟨true, fun _ _ _ _ => "ok", fun _ _ _ _ => ["ok"]⟩

/-- Example registry for the query-level witnesses: sets `a` and `b` whose
patterns overlap on one file, and an empty set `e`. -/
def exQReg : Registry := fun n =>
  if n = "a" then some ⟨"a", "", ["*.md"], [], "base"⟩
  else if n = "b" then some ⟨"b", "", ["*.txt"], [], "base"⟩
  else if n = "e" then some ⟨"e", "", [], [], "base"⟩
  else none

/-- Example pattern matcher in which the `a` and `b` patterns both match
the same single file. -/
def exQGlob : String → List String := fun pat =>
  if pat = "base/*.md" then ["base/x.md"]
  else if pat = "base/*.txt" then ["base/x.md"]
  else []

/-- Example environment: one configured model `m`, the registry and
matcher above, constant file contents, three tokens per file, a gateway
returning the always-successful provider, and a declining confirmation
reply. -/
def exEnv : Env :=
  { models := some [("m", ⟨"anthropic"⟩)]
    sets := exQReg
    glob := exQGlob
    content := fun _ => "text"
    tokens := fun _ => 3
    get_provider := fun _ _ => some exProvider
    proceed_reply := "n" }

/-- Example environment whose confirmation reply accepts. -/
def exEnvYes : Env := { exEnv with proceed_reply := "Y" }

/-! ## Claims C8 and C9 -/

/-- C8: when the requested model name is absent from the configuration's
`Models` section, `execute_query` reports the failure and returns with an
empty event trace — in particular no set resolution and no file read has
happened, whatever the rest of the environment contains, so the model
check precedes set resolution for every invocation. -/
theorem C8_model_check_first (env : Env) (q set_name m : String)
    (sp : Option String) (t : Rat) (mt : Option Nat) (st inc : Bool)
    (hm : (env.models.getD []).lookup m = none) :
    execute_query env q set_name m sp t mt st inc = ([], Outcome.modelNotFound) := by
  unfold execute_query
  rw [hm]

/-- Witness for C8: requesting the unconfigured model `zzz` fails with an
empty trace. -/
theorem C8_model_check_first_witness :
    execute_query exEnv "q" "a" "zzz" none 1 none true true =
      ([], Outcome.modelNotFound) :=
  C8_model_check_first exEnv "q" "a" "zzz" none 1 none true true rfl

/-- C9: the Anthropic provider fails open.  With a validated configuration
and an initialized client, a backend error from the blocking call is
caught and returned as an error-message string (the caller always receives
a string), and a backend error during streaming results in the chunks
produced so far followed by a single error-message chunk, after which the
sequence ends. -/
theorem C9_anthropic_fails_open (p : AnthropicProvider) (c : AnthropicBackend)
    (prompt : String) (sp : Option String) (t : Rat) (mt : Option Nat)
    (e : String) (chunks : List String)
    (hc : p.client = some c) (hv : p.validate_config = true) :
    (c.create p.model [("user", prompt)] sp t mt = Except.error e →
      p.get_completion prompt sp t mt = "Error: " ++ e) ∧
    (c.stream p.model [("user", prompt)] sp t mt = (chunks, some e) →
      p.get_completion_stream prompt sp t mt = chunks ++ ["Error: " ++ e]) := by
  constructor
  · intro h
    unfold AnthropicProvider.get_completion
    simp [hv, hc, h]
  · intro h
    unfold AnthropicProvider.get_completion_stream
    simp [hv, hc, h]

/-- Example Anthropic backend that raises on both calls, after one
streamed chunk. -/
def exBackend : AnthropicBackend :=
  ⟨fun _ _ _ _ _ => Except.error "boom",
   fun _ _ _ _ _ => (["first chunk"], some "boom")⟩

/-- Example Anthropic provider wrapping `exBackend` with a complete
configuration. -/
def exAnthropic : AnthropicProvider := ⟨true, "key", "claude", some exBackend⟩

/-- Witness for C9: the erroring backend produces the error-message string
and the error-terminated chunk sequence. -/
theorem C9_anthropic_fails_open_witness :
    exAnthropic.get_completion "hi" none 1 none = "Error: " ++ "boom" ∧
    exAnthropic.get_completion_stream "hi" none 1 none =
      ["first chunk"] ++ ["Error: " ++ "boom"] :=
  ⟨(C9_anthropic_fails_open exAnthropic exBackend "hi" none 1 none "boom"
      ["first chunk"] rfl rfl).1 rfl,
   (C9_anthropic_fails_open exAnthropic exBackend "hi" none 1 none "boom"
      ["first chunk"] rfl rfl).2 rfl⟩

/-! ## Claim C7 -/

/-- C7: for a single-set query whose set resolves to no files, the
confirmation gate decides the outcome.  A reply other than `y` (after
lowercasing) cancels the invocation — the trace holds only the resolution
and the warning, and in particular no completion call — while a `y` reply
continues into the common tail with an empty context string, a zero token
total and a zero file count. -/
theorem C7_empty_set_confirmation (env : Env) (q set_name m : String)
    (mc : ModelCfg) (sp : Option String) (t : Rat) (mt : Option Nat)
    (st inc : Bool) (cs : ContextSet)
    (hm : (env.models.getD []).lookup m = some mc)
    (hlen : ¬ 1 < ((splitCommas set_name).map pyStrip).length)
    (hs : env.sets set_name = some cs)
    (hempty : cs.get_matching_files env.glob (some env.sets) = []) :
    (pyLower env.proceed_reply ≠ "y" →
      execute_query env q set_name m sp t mt st inc =
        ([Event.resolveSet set_name, Event.warnEmptySet set_name],
         Outcome.cancelled) ∧
      ∀ pr, Event.completionCall pr ∉ (execute_query env q set_name m sp t mt st inc).1) ∧
    (pyLower env.proceed_reply = "y" →
      execute_query env q set_name m sp t mt st inc =
        (Event.resolveSet set_name :: Event.warnEmptySet set_name ::
          (finish_query env q m mc 0 "" 0 sp t mt st inc).1,
         (finish_query env q m mc 0 "" 0 sp t mt st inc).2)) := by
  have hbase : execute_query env q set_name m sp t mt st inc =
      (if pyLower env.proceed_reply ≠ "y" then
        ([Event.resolveSet set_name, Event.warnEmptySet set_name], Outcome.cancelled)
      else
        ([Event.resolveSet set_name, Event.warnEmptySet set_name] ++
          (finish_query env q m mc 0 "" 0 sp t mt st inc).1,
         (finish_query env q m mc 0 "" 0 sp t mt st inc).2)) := by
    unfold execute_query
    rw [hm]
    simp only [if_neg hlen, get_context_set_files, hs, hempty, List.isEmpty_nil,
      if_true, List.length_nil]
    rfl
  constructor
  · intro hno
    rw [hbase, if_pos hno]
    refine ⟨rfl, ?_⟩
    intro pr
    simp
  · intro hyes
    rw [hbase, if_neg (by simpa using hyes)]
    rfl

/-- Witness for C7 (both gate directions, at the two example
environments): declining cancels with no completion event; accepting
continues with empty context and zero totals. -/
theorem C7_empty_set_confirmation_witness :
    (execute_query exEnv "q" "e" "m" none 1 none true true =
        ([Event.resolveSet "e", Event.warnEmptySet "e"], Outcome.cancelled) ∧
      ∀ pr, Event.completionCall pr ∉ (execute_query exEnv "q" "e" "m" none 1 none true true).1) ∧
    execute_query exEnvYes "q" "e" "m" none 1 none true true =
      (Event.resolveSet "e" :: Event.warnEmptySet "e" ::
        (finish_query exEnvYes "q" "m" ⟨"anthropic"⟩ 0 "" 0 none 1 none true true).1,
       (finish_query exEnvYes "q" "m" ⟨"anthropic"⟩ 0 "" 0 none 1 none true true).2) :=
  ⟨(C7_empty_set_confirmation exEnv "q" "e" "m" ⟨"anthropic"⟩ none 1 none true true
      ⟨"e", "", [], [], "base"⟩ rfl (by decide) rfl rfl).1 (by decide),
   (C7_empty_set_confirmation exEnvYes "q" "e" "m" ⟨"anthropic"⟩ none 1 none true true
      ⟨"e", "", [], [], "base"⟩ rfl (by decide) rfl rfl).2 (by decide)⟩

/-! ## Lemmas about the multi-set branch -/

/-- Unfolding of `execute_query` in the multi-set branch: the trace is the
context-building events, then the re-resolution events of the present
sets, then the common tail's events; the outcome is the common tail's. -/
theorem execute_query_multi_eq (env : Env) (q set_name m : String) (mc : ModelCfg)
    (sp : Option String) (t : Rat) (mt : Option Nat) (st inc : Bool)
    (hm : (env.models.getD []).lookup m = some mc)
    (hlen : 1 < ((splitCommas set_name).map pyStrip).length) :
    execute_query env q set_name m sp t mt st inc =
      ((format_context_from_multiple_sets env ((splitCommas set_name).map pyStrip)).1 ++
        ((((splitCommas set_name).map pyStrip).filter fun s => (env.sets s).isSome).map
          fun s => (get_context_set_files env s).1).flatten ++
        (finish_query env q m mc
          ((((splitCommas set_name).map pyStrip).filter fun s => (env.sets s).isSome).map
            fun s => (((get_context_set_files env s).2).getD []).length).sum
          (format_context_from_multiple_sets env ((splitCommas set_name).map pyStrip)).2.1
          (format_context_from_multiple_sets env ((splitCommas set_name).map pyStrip)).2.2
          sp t mt st inc).1,
       (finish_query env q m mc
          ((((splitCommas set_name).map pyStrip).filter fun s => (env.sets s).isSome).map
            fun s => (((get_context_set_files env s).2).getD []).length).sum
          (format_context_from_multiple_sets env ((splitCommas set_name).map pyStrip)).2.1
          (format_context_from_multiple_sets env ((splitCommas set_name).map pyStrip)).2.2
          sp t mt st inc).2) := by
  unfold execute_query
  rw [hm]
  simp only [if_pos hlen]

/-- The common tail never produces the set-resolution failures: its
outcome is a provider failure or a completed query. -/
theorem finish_query_outcome (env : Env) (q m : String) (mc : ModelCfg)
    (fc : Nat) (ctx : String) (tt : Nat) (sp : Option String) (t : Rat)
    (mt : Option Nat) (st inc : Bool) :
    (finish_query env q m mc fc ctx tt sp t mt st inc).2 ≠ Outcome.setNotFound ∧
    (finish_query env q m mc fc ctx tt sp t mt st inc).2 ≠ Outcome.cancelled := by
  unfold finish_query
  match env.get_provider m mc with
  | none => simp
  | some provider =>
    by_cases hv : provider.valid = false
    · simp [hv]
    · cases st <;> simp [hv]

/-- Every event of the common tail is the display line or the completion
call. -/
theorem finish_query_events (env : Env) (q m : String) (mc : ModelCfg)
    (fc : Nat) (ctx : String) (tt : Nat) (sp : Option String) (t : Rat)
    (mt : Option Nat) (st inc : Bool) (e : Event)
    (he : e ∈ (finish_query env q m mc fc ctx tt sp t mt st inc).1) :
    (∃ a b, e = Event.display a b) ∨ ∃ pr, e = Event.completionCall pr := by
  unfold finish_query at he
  match hp : env.get_provider m mc with
  | none => rw [hp] at he; simp at he
  | some provider =>
    rw [hp] at he
    by_cases hv : provider.valid = false
    · simp [hv] at he
    · simp only [hv, Bool.false_eq_true, if_false] at he
      rcases List.mem_cons.mp he with rfl | he2
      · exact Or.inl ⟨fc, tt, rfl⟩
      · rcases List.mem_cons.mp he2 with rfl | he3
        · exact Or.inr ⟨_, rfl⟩
        · simp at he3

/-- With a present and valid provider the common tail's trace is exactly
the display line followed by the completion call. -/
theorem finish_query_provider_ok (env : Env) (q m : String) (mc : ModelCfg)
    (fc : Nat) (ctx : String) (tt : Nat) (sp : Option String) (t : Rat)
    (mt : Option Nat) (st inc : Bool) (p : Provider)
    (hp : env.get_provider m mc = some p) (hv : p.valid = true) :
    (finish_query env q m mc fc ctx tt sp t mt st inc).1 =
      [Event.display fc tt,
       Event.completionCall (create_prompt ctx q inc)] := by
  unfold finish_query
  rw [hp]
  simp [hv]

/-- A missing name in a multi-set context build leaves its warning in the
trace. -/
theorem fcms_warn_missing (env : Env) (names : List String) (n : String)
    (hn : n ∈ names) (hmiss : env.sets n = none) :
    Event.warnSetMissing n ∈ (format_context_from_multiple_sets env names).1 := by
  unfold format_context_from_multiple_sets
  rw [List.mem_append]
  left
  rw [List.mem_flatten]
  refine ⟨_, List.mem_map_of_mem _ hn, ?_⟩
  simp [get_context_set_files, hmiss]

/-- Every event of a multi-set context build is a set resolution or a
missing-set warning for one of the names, or a file read. -/
theorem fcms_events (env : Env) (names : List String) (e : Event)
    (he : e ∈ (format_context_from_multiple_sets env names).1) :
    (∃ n ∈ names, e = Event.resolveSet n ∨ e = Event.warnSetMissing n) ∨
      ∃ pa, e = Event.readFile pa := by
  unfold format_context_from_multiple_sets format_context_from_files at he
  rw [List.mem_append] at he
  rcases he with he | he
  · rw [List.mem_flatten] at he
    obtain ⟨l, hl, hel⟩ := he
    rw [List.mem_map] at hl
    obtain ⟨n, hn, rfl⟩ := hl
    refine Or.inl ⟨n, hn, ?_⟩
    rcases hr : (get_context_set_files env n).2 with _ | f
    · rw [hr] at hel
      simp only [get_context_set_files] at hel
      rcases List.mem_cons.mp hel with rfl | hel2
      · exact Or.inl rfl
      · rcases List.mem_cons.mp hel2 with rfl | hel3
        · exact Or.inr rfl
        · simp at hel3
    · rw [hr] at hel
      simp only [get_context_set_files] at hel
      rcases List.mem_cons.mp hel with rfl | hel2
      · exact Or.inl rfl
      · simp at hel2
  · rw [List.mem_map] at he
    obtain ⟨pa, _, rfl⟩ := he
    exact Or.inr ⟨pa, rfl⟩

/-- Names whose set is missing contribute no files, so the concatenated
file list equals the one over the present names only. -/
theorem fcms_files_filter (env : Env) (names : List String) :
    (names.map fun n => ((get_context_set_files env n).2).getD []).flatten =
      ((names.filter fun n => (env.sets n).isSome).map
        fun n => ((get_context_set_files env n).2).getD []).flatten := by
  induction names with
  | nil => rfl
  | cons n ns ih =>
    cases hsn : env.sets n with
    | none =>
      have h2 : ((get_context_set_files env n).2).getD [] = [] := by
        simp [get_context_set_files, hsn]
      simp only [List.map_cons, List.flatten_cons, h2, List.nil_append,
        List.filter_cons, hsn, Option.isSome_none, Bool.false_eq_true, if_false]
      exact ih
    | some s =>
      simp only [List.map_cons, List.flatten_cons, List.filter_cons, hsn,
        Option.isSome_some, if_true]
      rw [ih]

/-- C6's skip property: the context and token total of a multi-set build
equal those of the build over the present names only. -/
theorem fcms_skip_missing (env : Env) (names : List String) :
    (format_context_from_multiple_sets env names).2 =
      (format_context_from_multiple_sets env
        (names.filter fun n => (env.sets n).isSome)).2 := by
  unfold format_context_from_multiple_sets
  rw [fcms_files_filter]

/-! ## Claim C6 -/

/-- C6: when `set_name` splits on commas into more than one name (each
trimmed of surrounding whitespace before any lookup — every set
resolution in the trace is for a trimmed name), a missing name is skipped
with a warning and the query continues: the outcome is never the
set-not-found failure nor the cancellation, and the built context and
token total equal those over the present names alone.  When the split
yields a single name and that (unsplit) name is missing from the
registry, the invocation fails as set-not-found immediately after the
resolution attempt, with no completion call in the trace. -/
theorem C6_missing_set_policy (env : Env) (q set_name m : String) (mc : ModelCfg)
    (sp : Option String) (t : Rat) (mt : Option Nat) (st inc : Bool)
    (hm : (env.models.getD []).lookup m = some mc) :
    (1 < ((splitCommas set_name).map pyStrip).length →
      ((execute_query env q set_name m sp t mt st inc).2 ≠ Outcome.setNotFound ∧
       (execute_query env q set_name m sp t mt st inc).2 ≠ Outcome.cancelled) ∧
      (∀ n ∈ (splitCommas set_name).map pyStrip, env.sets n = none →
        Event.warnSetMissing n ∈ (execute_query env q set_name m sp t mt st inc).1) ∧
      (∀ n, Event.resolveSet n ∈ (execute_query env q set_name m sp t mt st inc).1 →
        n ∈ (splitCommas set_name).map pyStrip) ∧
      (format_context_from_multiple_sets env ((splitCommas set_name).map pyStrip)).2 =
        (format_context_from_multiple_sets env
          (((splitCommas set_name).map pyStrip).filter fun n => (env.sets n).isSome)).2) ∧
    (¬ 1 < ((splitCommas set_name).map pyStrip).length → env.sets set_name = none →
      execute_query env q set_name m sp t mt st inc =
        ([Event.resolveSet set_name], Outcome.setNotFound)) := by
  constructor
  · intro hlen
    rw [execute_query_multi_eq env q set_name m mc sp t mt st inc hm hlen]
    refine ⟨⟨?_, ?_⟩, ?_, ?_, fcms_skip_missing env _⟩
    · exact (finish_query_outcome env q m mc _ _ _ sp t mt st inc).1
    · exact (finish_query_outcome env q m mc _ _ _ sp t mt st inc).2
    · intro n hn hmiss
      rw [List.mem_append]
      exact Or.inl (List.mem_append.mpr
        (Or.inl (fcms_warn_missing env _ n hn hmiss)))
    · intro n hn
      rw [List.mem_append, List.mem_append] at hn
      rcases hn with (hn | hn) | hn
      · rcases fcms_events env _ _ hn with ⟨n', hn', h | h⟩ | ⟨pa, h⟩
        · injection h with h
          exact h ▸ hn'
        · exact absurd h (by simp)
        · exact absurd h (by simp)
      · rw [List.mem_flatten] at hn
        obtain ⟨l, hl, hel⟩ := hn
        rw [List.mem_map] at hl
        obtain ⟨s, hs, rfl⟩ := hl
        simp only [get_context_set_files, List.mem_singleton] at hel
        injection hel with hel
        exact hel ▸ List.mem_of_mem_filter hs
      · rcases finish_query_events env q m mc _ _ _ sp t mt st inc _ hn with
          ⟨a, b, h⟩ | ⟨pr, h⟩
        · exact absurd h (by simp)
        · exact absurd h (by simp)
  · intro hlen hmiss
    unfold execute_query
    rw [hm]
    simp only [if_neg hlen, get_context_set_files, hmiss]

/-- Witness for C6 at the example environment: the multi-set query
`"a, zz"` (with `zz` unconfigured) and the single-set query for the
missing name `zz`. -/
theorem C6_missing_set_policy_witness :
    ((1 < ((splitCommas "a, zz").map pyStrip).length →
      ((execute_query exEnv "q" "a, zz" "m" none 1 none true true).2 ≠ Outcome.setNotFound ∧
       (execute_query exEnv "q" "a, zz" "m" none 1 none true true).2 ≠ Outcome.cancelled) ∧
      (∀ n ∈ (splitCommas "a, zz").map pyStrip, exEnv.sets n = none →
        Event.warnSetMissing n ∈ (execute_query exEnv "q" "a, zz" "m" none 1 none true true).1) ∧
      (∀ n, Event.resolveSet n ∈ (execute_query exEnv "q" "a, zz" "m" none 1 none true true).1 →
        n ∈ (splitCommas "a, zz").map pyStrip) ∧
      (format_context_from_multiple_sets exEnv ((splitCommas "a, zz").map pyStrip)).2 =
        (format_context_from_multiple_sets exEnv
          (((splitCommas "a, zz").map pyStrip).filter fun n => (exEnv.sets n).isSome)).2) ∧
    (¬ 1 < ((splitCommas "a, zz").map pyStrip).length → exEnv.sets "a, zz" = none →
      execute_query exEnv "q" "a, zz" "m" none 1 none true true =
        ([Event.resolveSet "a, zz"], Outcome.setNotFound))) ∧
    execute_query exEnv "q" "zz" "m" none 1 none true true =
      ([Event.resolveSet "zz"], Outcome.setNotFound) :=
  ⟨C6_missing_set_policy exEnv "q" "a, zz" "m" ⟨"anthropic"⟩ none 1 none true true rfl,
   (C6_missing_set_policy exEnv "q" "zz" "m" ⟨"anthropic"⟩ none 1 none true true rfl).2
     (by decide) rfl⟩

/-! ## Claim C10 -/

/-- Test for a file-read event. -/
def isReadFile : Event → Bool
  | Event.readFile _ => true
  | _ => false

/-- The file reads of a multi-set context build are exactly the
first-occurrence-deduplicated concatenation of the per-name file lists. -/
theorem fcms_readFile_filter (env : Env) (names : List String) :
    ((format_context_from_multiple_sets env names).1.filter isReadFile) =
      (pyDedup ((names.map fun n =>
        ((get_context_set_files env n).2).getD []).flatten)).map Event.readFile := by
  unfold format_context_from_multiple_sets format_context_from_files
  rw [List.filter_append]
  have h1 : (List.filter isReadFile ((names.map fun n =>
      match (get_context_set_files env n).2 with
      | some _ => (get_context_set_files env n).1
      | none => (get_context_set_files env n).1 ++ [Event.warnSetMissing n]).flatten)) = [] := by
    rw [List.filter_eq_nil_iff]
    intro e he
    rw [List.mem_flatten] at he
    obtain ⟨l, hl, hel⟩ := he
    rw [List.mem_map] at hl
    obtain ⟨n, _, rfl⟩ := hl
    rcases hr : (get_context_set_files env n).2 with _ | f
    · rw [hr] at hel
      simp only [get_context_set_files] at hel
      rcases List.mem_cons.mp hel with rfl | hel2
      · simp [isReadFile]
      · rcases List.mem_cons.mp hel2 with rfl | hel3
        · simp [isReadFile]
        · simp at hel3
    · rw [hr] at hel
      simp only [get_context_set_files] at hel
      rcases List.mem_cons.mp hel with rfl | hel2
      · simp [isReadFile]
      · simp at hel2
  have h2 : (List.filter isReadFile ((pyDedup ((names.map fun n =>
      ((get_context_set_files env n).2).getD []).flatten)).map Event.readFile)) =
      (pyDedup ((names.map fun n =>
        ((get_context_set_files env n).2).getD []).flatten)).map Event.readFile := by
    rw [List.filter_eq_self]
    intro e he
    rw [List.mem_map] at he
    obtain ⟨pa, _, rfl⟩ := he
    simp [isReadFile]
  rw [h1, h2, List.nil_append]

/-- C10: in the multi-set branch (with a present, valid provider), the
displayed file count is the sum of the lengths of the independently
re-resolved per-set file lists over the present names, while the displayed
token total is summed over the first-occurrence-deduplicated file list
that the context is actually built from; the file-read events are exactly
that deduplicated list.  Consequently the displayed count can exceed the
number of files read into the context, as a concrete environment
exhibits. -/
theorem C10_files_count_overcount (env : Env) (q set_name m : String)
    (mc : ModelCfg) (sp : Option String) (t : Rat) (mt : Option Nat)
    (st inc : Bool) (p : Provider)
    (hm : (env.models.getD []).lookup m = some mc)
    (hlen : 1 < ((splitCommas set_name).map pyStrip).length)
    (hp : env.get_provider m mc = some p) (hv : p.valid = true) :
    (Event.display
        ((((splitCommas set_name).map pyStrip).filter fun s => (env.sets s).isSome).map
          fun s => (((get_context_set_files env s).2).getD []).length).sum
        ((pyDedup ((((splitCommas set_name).map pyStrip).map fun n =>
            ((get_context_set_files env n).2).getD []).flatten)).map env.tokens).sum
      ∈ (execute_query env q set_name m sp t mt st inc).1) ∧
    ((execute_query env q set_name m sp t mt st inc).1.filter isReadFile) =
      (pyDedup ((((splitCommas set_name).map pyStrip).map fun n =>
        ((get_context_set_files env n).2).getD []).flatten)).map Event.readFile ∧
    ∃ (env' : Env) (q' sn' m' : String) (sp' : Option String) (t' : Rat)
      (mt' : Option Nat) (st' inc' : Bool) (fc tt : Nat),
      Event.display fc tt ∈ (execute_query env' q' sn' m' sp' t' mt' st' inc').1 ∧
      ((execute_query env' q' sn' m' sp' t' mt' st' inc').1.filter isReadFile).length < fc := by
  rw [execute_query_multi_eq env q set_name m mc sp t mt st inc hm hlen]
  have htok : (format_context_from_multiple_sets env
      ((splitCommas set_name).map pyStrip)).2.2 =
      ((pyDedup ((((splitCommas set_name).map pyStrip).map fun n =>
        ((get_context_set_files env n).2).getD []).flatten)).map env.tokens).sum := rfl
  refine ⟨?_, ?_, ?_⟩
  · rw [List.mem_append]
    right
    rw [finish_query_provider_ok env q m mc _ _ _ sp t mt st inc p hp hv, htok]
    exact List.mem_cons_self _ _
  · rw [List.filter_append, List.filter_append]
    rw [fcms_readFile_filter, finish_query_provider_ok env q m mc _ _ _ sp t mt st inc p hp hv]
    have hev2 : (List.filter isReadFile
        (((((splitCommas set_name).map pyStrip).filter fun s => (env.sets s).isSome).map
          fun s => (get_context_set_files env s).1).flatten)) = [] := by
      rw [List.filter_eq_nil_iff]
      intro e he
      rw [List.mem_flatten] at he
      obtain ⟨l, hl, hel⟩ := he
      rw [List.mem_map] at hl
      obtain ⟨s, _, rfl⟩ := hl
      simp only [get_context_set_files, List.mem_singleton] at hel
      subst hel
      simp [isReadFile]
    rw [hev2]
    simp [isReadFile]
  · exact ⟨exEnv, "q", "a,b", "m", none, 1, none, true, true, 2, 3,
      by decide, by decide⟩

/-- Witness for C10 at the example environment, whose sets `a` and `b`
resolve to the same single file: the displayed count sums both
resolutions while the context reads the file once. -/
theorem C10_files_count_overcount_witness :
    Event.display
        ((((splitCommas "a,b").map pyStrip).filter fun s => (exEnv.sets s).isSome).map
          fun s => (((get_context_set_files exEnv s).2).getD []).length).sum
        ((pyDedup ((((splitCommas "a,b").map pyStrip).map fun n =>
            ((get_context_set_files exEnv n).2).getD []).flatten)).map exEnv.tokens).sum
      ∈ (execute_query exEnv "q" "a,b" "m" none 1 none true true).1 :=
  (C10_files_count_overcount exEnv "q" "a,b" "m" ⟨"anthropic"⟩ none 1 none true true
    exProvider rfl (by decide) rfl rfl).1

end Dcx
